import Mathlib

/-!
Shallow embedding of the opencode-checkpoint plugin core: the checkpoint
store (`database.ts`, backed by a SQLite table) and the restore resolver
(`restore.ts`).  The store is modelled as an explicit in-memory state: the
table rows in insertion (rowid) order plus the next AUTOINCREMENT id.  The
resolver's async collaborator calls are modelled with `Except String`,
carrying a rejected promise's message text.  `restore` is instrumented to
also report which collaborator calls it made, so that "never invokes fork"
style properties are directly statable.
-/

namespace OpencodeCheckpoint

/-- A row of the `checkpoints` table, in the field names and shapes of the
`Checkpoint` interface of `database.ts`.  `metadata` is the serialized JSON
blob exactly as stored (a `TEXT` column). -/
structure Checkpoint where
  id : Nat
  sessionId : String
  name : String
  description : Option String
  messageCount : Nat
  gitCommit : Option String
  createdAt : Nat
  metadata : String
deriving DecidableEq

/-- The `CheckpointCreate` input of `createCheckpoint`.  The optional
`metadata` record is modelled in its serialized form (the JSON string that
`JSON.stringify` produces for it), since the store treats it as an opaque
blob. -/
structure CheckpointCreate where
  sessionId : String
  name : String
  description : Option String
  messageCount : Nat
  gitCommit : Option String
  metadata : Option String
deriving DecidableEq

/-- JavaScript `x || null` applied to an optional string: `undefined` and
the empty string are both falsy, so both collapse to `null`. -/
def jsOrNull : Option String → Option String
  | some s => if s = "" then none else some s
  | none => none

/-- State of the `checkpoints` table: rows in insertion (rowid) order and
the next value of the AUTOINCREMENT id counter. -/
structure DbState where
  rows : List Checkpoint
  nextId : Nat
deriving DecidableEq

/-- `createCheckpoint` (database.ts:81): inserts a row with the next
AUTOINCREMENT id, `description || null`, `gitCommit || null`,
`created_at = Date.now()` (passed here as `now`), and
`JSON.stringify(metadata || \x7b\x7d)`.  Returns the new id and state. -/
def createCheckpoint (st : DbState) (data : CheckpointCreate) (now : Nat) :
    Nat × DbState :=
  let row : Checkpoint :=
    { id := st.nextId
      sessionId := data.sessionId
      name := data.name
      description := jsOrNull data.description
      messageCount := data.messageCount
      gitCommit := jsOrNull data.gitCommit
      createdAt := now
      metadata := data.metadata.getD "\x7b\x7d" }
  (st.nextId, ⟨st.rows ++ [row], st.nextId + 1⟩)

/-- `getCheckpoint` (database.ts:105): `SELECT ... WHERE id = ?`. -/
def getCheckpoint (st : DbState) (id : Nat) : Option Checkpoint :=
  st.rows.find? (fun c => c.id == id)

/-- Insertion step of the stable descending sort on `createdAt`: skip over
rows with a strictly larger timestamp, then place the new row in front of
the rest (so among equal timestamps the earlier-inserted row stays first). -/
def insertByCreatedAtDesc (c : Checkpoint) : List Checkpoint → List Checkpoint
  | [] => [c]
  | d :: ds =>
    if c.createdAt < d.createdAt then d :: insertByCreatedAtDesc c ds
    else c :: d :: ds

/-- Model of the SQL `ORDER BY created_at DESC`.  The SQL names no
secondary sort key, so rows with equal `created_at` have no order imposed
by the query itself; this model resolves such ties stably, i.e. in
insertion (rowid) order, which is what a forward scan of the
`(session_id, created_at DESC)` index with its ascending rowid tiebreaker
produces. -/
def sortByCreatedAtDesc : List Checkpoint → List Checkpoint
  | [] => []
  | c :: cs => insertByCreatedAtDesc c (sortByCreatedAtDesc cs)

/-- `listCheckpoints` (database.ts:126): `WHERE session_id = ? ORDER BY
created_at DESC LIMIT ?`.  The TS signature defaults `limit` to 50. -/
def listCheckpoints (st : DbState) (sessionId : String) (limit : Nat) :
    List Checkpoint :=
  (sortByCreatedAtDesc (st.rows.filter (fun c => c.sessionId == sessionId))).take limit

/-- `findCheckpointByName` (database.ts:149): `WHERE session_id = ? AND
name = ? ORDER BY created_at DESC LIMIT 1`.  SQL `=` on TEXT uses the
default BINARY collation, so the name match is exact and case-sensitive. -/
def findCheckpointByName (st : DbState) (sessionId name : String) :
    Option Checkpoint :=
  (sortByCreatedAtDesc
    (st.rows.filter (fun c => c.sessionId == sessionId && c.name == name))).head?

/-- `deleteCheckpoint` (database.ts:172): `DELETE ... WHERE id = ?`,
returning `changes > 0`. -/
def deleteCheckpoint (st : DbState) (id : Nat) : Bool × DbState :=
  (st.rows.any (fun c => c.id == id),
   ⟨st.rows.filter (fun c => !(c.id == id)), st.nextId⟩)

/-- `deleteSessionCheckpoints` (database.ts:181): `DELETE ... WHERE
session_id = ?`, returning the number of removed rows. -/
def deleteSessionCheckpoints (st : DbState) (sessionId : String) :
    Nat × DbState :=
  ((st.rows.filter (fun c => c.sessionId == sessionId)).length,
   ⟨st.rows.filter (fun c => !(c.sessionId == sessionId)), st.nextId⟩)

/-- The mutating store operations, for stating persistence across later
calls (`getStats`, `close` and the read operations do not change rows). -/
inductive DbOp where
  | create (data : CheckpointCreate) (now : Nat)
  | deleteCp (id : Nat)
  | deleteSession (sessionId : String)
deriving DecidableEq

/-- Apply one mutating store operation to the table state. -/
def applyOp (st : DbState) : DbOp → DbState
  | .create data now => (createCheckpoint st data now).2
  | .deleteCp id => (deleteCheckpoint st id).2
  | .deleteSession s => (deleteSessionCheckpoints st s).2

/-- Apply a sequence of mutating store operations in order. -/
def applyOps (st : DbState) (ops : List DbOp) : DbState :=
  ops.foldl applyOp st

/-- Table invariant maintained by `createCheckpoint`: every stored row id
is below the AUTOINCREMENT counter. -/
def DbInv (st : DbState) : Prop :=
  ∀ c ∈ st.rows, c.id < st.nextId

/-- A message as returned by the session client's `messages` call; only
its `id` is used by the resolver, `content` is opaque. -/
structure Msg where
  id : String
  content : String
deriving DecidableEq

/-- `SessionForkOptions` of restore.ts. -/
structure SessionForkOptions where
  sessionId : String
  messageId : Option String
  title : Option String
deriving DecidableEq

/-- The fork collaborator's response. -/
structure ForkResponse where
  id : String
  title : String
deriving DecidableEq

/-- `OpenCodeSessionClient` of restore.ts.  A rejected promise is modelled
as `Except.error` carrying the error's message text (restore.ts extracts
`error.message`). -/
structure OpenCodeSessionClient where
  fork : SessionForkOptions → Except String ForkResponse
  messages : String → Except String (List Msg)

/-- `RestoreResult` of restore.ts; the optional `error` field is `none` on
success. -/
structure RestoreResult where
  success : Bool
  checkpointId : Nat
  checkpointName : String
  newSessionId : String
  messageCount : Nat
  error : Option String
deriving DecidableEq

/-- Result shape of `canRestore`. -/
structure CanRestoreResult where
  valid : Bool
  reason : Option String
deriving DecidableEq

/-- A restore call's outcome, instrumented with which collaborator calls
were actually made: whether `messages` was fetched, and the exact options
of every `fork` invocation (in this code, none or exactly one). -/
structure RestoreOutcome where
  result : RestoreResult
  messagesFetched : Bool
  forkCalls : List SessionForkOptions
deriving DecidableEq

/-- JavaScript array subscript with an integer index: a negative or
out-of-range index yields `undefined`. -/
def jsIndex {α : Type} (xs : List α) (i : Int) : Option α :=
  if i < 0 then none else xs.get? i.toNat

/-- `RestoreManager.restore` (restore.ts:47), transliterated branch by
branch.  `messages[checkpoint.messageCount - 1]` is JavaScript number
arithmetic, so for `messageCount = 0` it reads index `-1` (`undefined`);
the `!targetMessage` guard then takes the failure branch, since a message
object is never falsy. -/
def restore (db : DbState) (client : OpenCodeSessionClient)
    (sessionId : String) (checkpointId : Nat) : RestoreOutcome :=
  match getCheckpoint db checkpointId with
  | none =>
    ⟨⟨false, checkpointId, "unknown", "", 0,
      some ("Checkpoint " ++ toString checkpointId ++ " not found")⟩, false, []⟩
  | some checkpoint =>
    if checkpoint.sessionId ≠ sessionId then
      ⟨⟨false, checkpointId, checkpoint.name, "", 0,
        some ("Checkpoint belongs to different session (" ++
          checkpoint.sessionId ++ ")")⟩, false, []⟩
    else
      match client.messages sessionId with
      | .error e => ⟨⟨false, checkpointId, checkpoint.name, "", 0, some e⟩, true, []⟩
      | .ok messages =>
        if messages.length < checkpoint.messageCount then
          ⟨⟨false, checkpointId, checkpoint.name, "", messages.length,
            some ("Current session has " ++ toString messages.length ++
              " messages, checkpoint expects " ++
              toString checkpoint.messageCount)⟩, true, []⟩
        else
          match jsIndex messages ((checkpoint.messageCount : Int) - 1) with
          | none =>
            ⟨⟨false, checkpointId, checkpoint.name, "", 0,
              some ("Could not find message at position " ++
                toString checkpoint.messageCount)⟩, true, []⟩
          | some targetMessage =>
            let opts : SessionForkOptions :=
              ⟨sessionId, some targetMessage.id,
               some ("Restored: " ++ checkpoint.name)⟩
            match client.fork opts with
            | .error e =>
              ⟨⟨false, checkpointId, checkpoint.name, "", 0, some e⟩, true, [opts]⟩
            | .ok forked =>
              ⟨⟨true, checkpointId, checkpoint.name, forked.id,
                checkpoint.messageCount, none⟩, true, [opts]⟩

/-- `RestoreManager.restoreByName` (restore.ts:130): resolve via
`findCheckpointByName`, then delegate to `restore`. -/
def restoreByName (db : DbState) (client : OpenCodeSessionClient)
    (sessionId checkpointName : String) : RestoreOutcome :=
  match findCheckpointByName db sessionId checkpointName with
  | none =>
    ⟨⟨false, 0, checkpointName, "", 0,
      some ("No checkpoint named \"" ++ checkpointName ++
        "\" found for session")⟩, false, []⟩
  | some checkpoint => restore db client sessionId checkpoint.id

/-- `RestoreManager.canRestore` (restore.ts:149), transliterated branch by
branch.  Note its checks end at the message-count comparison: it has no
counterpart of restore's `!targetMessage` guard. -/
def canRestore (db : DbState) (client : OpenCodeSessionClient)
    (sessionId : String) (checkpointId : Nat) : CanRestoreResult :=
  match getCheckpoint db checkpointId with
  | none => ⟨false, some "Checkpoint not found"⟩
  | some checkpoint =>
    if checkpoint.sessionId ≠ sessionId then
      ⟨false, some "Checkpoint belongs to different session"⟩
    else
      match client.messages sessionId with
      | .error e => ⟨false, some e⟩
      | .ok messages =>
        if messages.length < checkpoint.messageCount then
          ⟨false, some ("Session has " ++ toString messages.length ++
            " messages, checkpoint requires " ++
            toString checkpoint.messageCount)⟩
        else ⟨true, none⟩

/-! Helper lemmas. -/

/-- A JavaScript subscript at `k - 1` for `k ≥ 1` is ordinary list lookup. -/
lemma jsIndex_of_pos (xs : List Msg) (k : Nat) (hk : 1 ≤ k) :
    jsIndex xs ((k : Int) - 1) = xs.get? (k - 1) := by
  unfold jsIndex
  rw [if_neg (by omega)]
  congr 1
  omega

/-- A JavaScript subscript at `0 - 1` reads index `-1`, which is undefined. -/
lemma jsIndex_of_zero (xs : List Msg) :
    jsIndex xs (((0 : Nat) : Int) - 1) = none := rfl

lemma find?_append_some {α : Type} {p : α → Bool} {l l' : List α} {a : α}
    (h : l.find? p = some a) : (l ++ l').find? p = some a := by
  induction l with
  | nil => simp [List.find?] at h
  | cons x xs ih =>
    by_cases hp : p x
    · rw [List.find?_cons_of_pos _ hp] at h
      rw [List.cons_append, List.find?_cons_of_pos _ hp]
      exact h
    · rw [List.find?_cons_of_neg _ hp] at h
      rw [List.cons_append, List.find?_cons_of_neg _ hp]
      exact ih h

lemma find?_filter_some {α : Type} {p q : α → Bool} {l : List α} {a : α}
    (h : l.find? p = some a) (hq : q a = true) :
    (l.filter q).find? p = some a := by
  induction l with
  | nil => simp [List.find?] at h
  | cons x xs ih =>
    by_cases hp : p x
    · rw [List.find?_cons_of_pos _ hp] at h
      obtain rfl : x = a := Option.some.inj h
      rw [List.filter_cons_of_pos hq, List.find?_cons_of_pos _ hp]
    · rw [List.find?_cons_of_neg _ hp] at h
      by_cases hqx : q x
      · rw [List.filter_cons_of_pos hqx, List.find?_cons_of_neg _ hp]
        exact ih h
      · rw [List.filter_cons_of_neg (by simpa using hqx)]
        exact ih h

lemma mem_insertByCreatedAtDesc {a c : Checkpoint} {l : List Checkpoint} :
    a ∈ insertByCreatedAtDesc c l ↔ a = c ∨ a ∈ l := by
  induction l with
  | nil => simp [insertByCreatedAtDesc]
  | cons d ds ih =>
    unfold insertByCreatedAtDesc
    split
    · simp only [List.mem_cons, ih]
      tauto
    · simp only [List.mem_cons]

lemma mem_sortByCreatedAtDesc {a : Checkpoint} {l : List Checkpoint} :
    a ∈ sortByCreatedAtDesc l ↔ a ∈ l := by
  induction l with
  | nil => simp [sortByCreatedAtDesc]
  | cons c cs ih =>
    simp [sortByCreatedAtDesc, mem_insertByCreatedAtDesc, ih]

lemma pairwise_ge_insertByCreatedAtDesc {c : Checkpoint} {l : List Checkpoint}
    (h : l.Pairwise (fun a b => b.createdAt ≤ a.createdAt)) :
    (insertByCreatedAtDesc c l).Pairwise (fun a b => b.createdAt ≤ a.createdAt) := by
  induction l with
  | nil => simp [insertByCreatedAtDesc]
  | cons d ds ih =>
    rw [List.pairwise_cons] at h
    obtain ⟨hd, hds⟩ := h
    unfold insertByCreatedAtDesc
    split
    · rename_i hlt
      rw [List.pairwise_cons]
      refine ⟨?_, ih hds⟩
      intro e he
      rcases mem_insertByCreatedAtDesc.mp he with rfl | he'
      · exact le_of_lt hlt
      · exact hd e he'
    · rename_i hnlt
      rw [List.pairwise_cons]
      refine ⟨?_, List.pairwise_cons.mpr ⟨hd, hds⟩⟩
      intro e he
      rcases List.mem_cons.mp he with rfl | he'
      · omega
      · exact le_trans (hd e he') (by omega)

lemma pairwise_stable_insertByCreatedAtDesc {c : Checkpoint} {l : List Checkpoint}
    (h : l.Pairwise
      (fun a b => b.createdAt ≤ a.createdAt ∧ (a.createdAt = b.createdAt → a.id < b.id)))
    (hc : ∀ d ∈ l, c.id < d.id) :
    (insertByCreatedAtDesc c l).Pairwise
      (fun a b => b.createdAt ≤ a.createdAt ∧ (a.createdAt = b.createdAt → a.id < b.id)) := by
  induction l with
  | nil => simp [insertByCreatedAtDesc]
  | cons d ds ih =>
    rw [List.pairwise_cons] at h
    obtain ⟨hd, hds⟩ := h
    unfold insertByCreatedAtDesc
    split
    · rename_i hlt
      rw [List.pairwise_cons]
      refine ⟨?_, ih hds (fun e he => hc e (List.mem_cons_of_mem d he))⟩
      intro e he
      rcases mem_insertByCreatedAtDesc.mp he with rfl | he'
      · exact ⟨le_of_lt hlt, fun heq => absurd heq (by omega)⟩
      · exact hd e he'
    · rename_i hnlt
      rw [List.pairwise_cons]
      refine ⟨?_, List.pairwise_cons.mpr ⟨hd, hds⟩⟩
      intro e he
      rcases List.mem_cons.mp he with rfl | he'
      · exact ⟨by omega, fun _ => hc e (List.mem_cons_self e ds)⟩
      · refine ⟨le_trans (hd e he').1 (by omega), fun heq => hc e (List.mem_cons_of_mem d he')⟩

lemma pairwise_ge_sortByCreatedAtDesc (l : List Checkpoint) :
    (sortByCreatedAtDesc l).Pairwise (fun a b => b.createdAt ≤ a.createdAt) := by
  induction l with
  | nil => simp [sortByCreatedAtDesc]
  | cons c cs ih => exact pairwise_ge_insertByCreatedAtDesc ih

lemma pairwise_stable_sortByCreatedAtDesc {l : List Checkpoint}
    (hids : l.Pairwise (fun a b => a.id < b.id)) :
    (sortByCreatedAtDesc l).Pairwise
      (fun a b => b.createdAt ≤ a.createdAt ∧ (a.createdAt = b.createdAt → a.id < b.id)) := by
  induction l with
  | nil => simp [sortByCreatedAtDesc]
  | cons c cs ih =>
    rw [List.pairwise_cons] at hids
    exact pairwise_stable_insertByCreatedAtDesc (ih hids.2)
      (fun d hd => hids.1 d (mem_sortByCreatedAtDesc.mp hd))

lemma insertByCreatedAtDesc_ne_nil {c : Checkpoint} {l : List Checkpoint} :
    insertByCreatedAtDesc c l ≠ [] := by
  cases l with
  | nil => simp [insertByCreatedAtDesc]
  | cons d ds =>
    unfold insertByCreatedAtDesc
    split <;> simp

lemma sortByCreatedAtDesc_eq_nil {l : List Checkpoint} :
    sortByCreatedAtDesc l = [] ↔ l = [] := by
  cases l with
  | nil => simp [sortByCreatedAtDesc]
  | cons c cs =>
    simp [sortByCreatedAtDesc, insertByCreatedAtDesc_ne_nil]

lemma head?_max_createdAt {l : List Checkpoint} {c : Checkpoint}
    (hp : l.Pairwise (fun a b => b.createdAt ≤ a.createdAt))
    (hh : l.head? = some c) : ∀ d ∈ l, d.createdAt ≤ c.createdAt := by
  cases l with
  | nil => cases hh
  | cons x xs =>
    obtain rfl : x = c := by simpa using hh
    rw [List.pairwise_cons] at hp
    intro d hd
    rcases List.mem_cons.mp hd with rfl | hd'
    · exact le_refl _
    · exact hp.1 d hd'

/-! Reduction lemmas for the branches of `restore`, shared by the claim
theorems below. -/

lemma restore_eq_of_mismatch
    {db : DbState} {client : OpenCodeSessionClient} {s : String} {cid : Nat}
    {cp : Checkpoint}
    (hcp : getCheckpoint db cid = some cp)
    (hne : cp.sessionId ≠ s) :
    restore db client s cid =
      ⟨⟨false, cid, cp.name, "", 0,
        some ("Checkpoint belongs to different session (" ++ cp.sessionId ++ ")")⟩,
       false, []⟩ := by
  unfold restore
  rw [hcp]
  dsimp only
  rw [if_pos hne]

lemma restore_eq_of_msg_error
    {db : DbState} {client : OpenCodeSessionClient} {s : String} {cid : Nat}
    {cp : Checkpoint} {e : String}
    (hcp : getCheckpoint db cid = some cp)
    (hown : cp.sessionId = s)
    (herr : client.messages s = Except.error e) :
    restore db client s cid =
      ⟨⟨false, cid, cp.name, "", 0, some e⟩, true, []⟩ := by
  unfold restore
  rw [hcp]
  dsimp only
  rw [if_neg (by simp [hown]), herr]

lemma restore_eq_of_insufficient
    {db : DbState} {client : OpenCodeSessionClient} {s : String} {cid : Nat}
    {cp : Checkpoint} {msgs : List Msg}
    (hcp : getCheckpoint db cid = some cp)
    (hown : cp.sessionId = s)
    (hmsgs : client.messages s = Except.ok msgs)
    (hlt : msgs.length < cp.messageCount) :
    restore db client s cid =
      ⟨⟨false, cid, cp.name, "", msgs.length,
        some ("Current session has " ++ toString msgs.length ++
          " messages, checkpoint expects " ++ toString cp.messageCount)⟩,
       true, []⟩ := by
  unfold restore
  rw [hcp]
  dsimp only
  rw [if_neg (by simp [hown]), hmsgs]
  dsimp only
  rw [if_pos hlt]

lemma restore_eq_of_zero_count
    {db : DbState} {client : OpenCodeSessionClient} {s : String} {cid : Nat}
    {cp : Checkpoint} {msgs : List Msg}
    (hcp : getCheckpoint db cid = some cp)
    (hown : cp.sessionId = s)
    (hzero : cp.messageCount = 0)
    (hmsgs : client.messages s = Except.ok msgs) :
    restore db client s cid =
      ⟨⟨false, cid, cp.name, "", 0,
        some "Could not find message at position 0"⟩, true, []⟩ := by
  unfold restore
  rw [hcp]
  dsimp only
  rw [if_neg (by simp [hown]), hmsgs]
  dsimp only
  rw [hzero]
  rw [if_neg (by omega), jsIndex_of_zero msgs]
  rfl

lemma restore_eq_of_fork_error
    {db : DbState} {client : OpenCodeSessionClient} {s : String} {cid : Nat}
    {cp : Checkpoint} {msgs : List Msg} {m : Msg} {e : String}
    (hcp : getCheckpoint db cid = some cp)
    (hown : cp.sessionId = s)
    (hmsgs : client.messages s = Except.ok msgs)
    (hk : 1 ≤ cp.messageCount)
    (hlen : cp.messageCount ≤ msgs.length)
    (hm : msgs.get? (cp.messageCount - 1) = some m)
    (hfork : client.fork ⟨s, some m.id, some ("Restored: " ++ cp.name)⟩ =
      Except.error e) :
    restore db client s cid =
      ⟨⟨false, cid, cp.name, "", 0, some e⟩, true,
       [⟨s, some m.id, some ("Restored: " ++ cp.name)⟩]⟩ := by
  unfold restore
  rw [hcp]
  dsimp only
  rw [if_neg (by simp [hown]), hmsgs]
  dsimp only
  rw [if_neg (by omega), jsIndex_of_pos msgs cp.messageCount hk, hm]
  dsimp only
  rw [hfork]

/-! Concrete fixtures used by witnesses and counterexamples. -/

/-- Checkpoint at message count 2, owned by session `s`. -/
def cpTwo : Checkpoint := ⟨1, "s", "cp", none, 2, none, 5, "\x7b\x7d"⟩

/-- Checkpoint at message count 0, owned by session `s`. -/
def cpZero : Checkpoint := ⟨1, "s", "cp", none, 0, none, 5, "\x7b\x7d"⟩

/-- Checkpoint at message count 5, owned by session `s`. -/
def cpFive : Checkpoint := ⟨1, "s", "cp", none, 5, none, 5, "\x7b\x7d"⟩

/-- Store holding only `cpTwo`. -/
def dbTwo : DbState := ⟨[cpTwo], 2⟩

/-- Store holding only `cpZero`. -/
def dbZero : DbState := ⟨[cpZero], 2⟩

/-- Store holding only `cpFive`. -/
def dbFive : DbState := ⟨[cpFive], 2⟩

/-- A live session of three messages. -/
def msgsThree : List Msg := [⟨"m0", "c0"⟩, ⟨"m1", "c1"⟩, ⟨"m2", "c2"⟩]

/-- Client whose calls all succeed: three live messages, fork yields `forked-1`. -/
def clientOk : OpenCodeSessionClient :=
  ⟨fun _ => Except.ok ⟨"forked-1", "t"⟩, fun _ => Except.ok msgsThree⟩

/-- Client whose message fetch rejects. -/
def clientMsgErr : OpenCodeSessionClient :=
  ⟨fun _ => Except.ok ⟨"forked-1", "t"⟩, fun _ => Except.error "API connection failed"⟩

/-! Claim theorems. -/

/-- C5: when the checkpoint's stored sessionId differs from the caller's,
`restore` fails with an error naming the checkpoint's true owning session,
with no message fetch and no fork invocation. -/
theorem restore_ownership_mismatch_isolated
    (db : DbState) (client : OpenCodeSessionClient) (s : String) (cid : Nat)
    (cp : Checkpoint)
    (hcp : getCheckpoint db cid = some cp)
    (hne : cp.sessionId ≠ s) :
    restore db client s cid =
      ⟨⟨false, cid, cp.name, "", 0,
        some ("Checkpoint belongs to different session (" ++ cp.sessionId ++ ")")⟩,
       false, []⟩ :=
  restore_eq_of_mismatch hcp hne

/-- Witness for C5, at a concrete store and distinct session ids. -/
theorem restore_ownership_mismatch_isolated_witness :
    restore dbTwo clientOk "other" 1 =
      ⟨⟨false, 1, "cp", "", 0,
        some ("Checkpoint belongs to different session (" ++ "s" ++ ")")⟩,
       false, []⟩ :=
  restore_ownership_mismatch_isolated dbTwo clientOk "other" 1 cpTwo rfl (by decide)

/-- C1: for a checkpoint with `messageCount = k ≥ 1` owned by the calling
session and a live sequence holding at least `k` messages, `restore`
invokes fork exactly once, with the identifier of the message at 0-based
index `k - 1` and title `Restored: <name>`, and on fork success returns
`success = true`, the checkpoint's id and name, the fork response's id as
the new session id, and `messageCount = k`. -/
theorem restore_success_forks_at_boundary
    (db : DbState) (client : OpenCodeSessionClient) (s : String) (cid : Nat)
    (cp : Checkpoint) (msgs : List Msg) (m : Msg) (fr : ForkResponse)
    (hcp : getCheckpoint db cid = some cp)
    (hown : cp.sessionId = s)
    (hk : 1 ≤ cp.messageCount)
    (hmsgs : client.messages s = Except.ok msgs)
    (hlen : cp.messageCount ≤ msgs.length)
    (hm : msgs.get? (cp.messageCount - 1) = some m)
    (hfork : client.fork ⟨s, some m.id, some ("Restored: " ++ cp.name)⟩ = Except.ok fr) :
    restore db client s cid =
      ⟨⟨true, cid, cp.name, fr.id, cp.messageCount, none⟩, true,
       [⟨s, some m.id, some ("Restored: " ++ cp.name)⟩]⟩ := by
  unfold restore
  rw [hcp]
  dsimp only
  rw [if_neg (by simp [hown]), hmsgs]
  dsimp only
  rw [if_neg (by omega), jsIndex_of_pos msgs cp.messageCount hk, hm]
  dsimp only
  rw [hfork]

/-- Witness for C1: checkpoint at count 2, three live messages; fork gets
the message at index 1. -/
theorem restore_success_forks_at_boundary_witness :
    restore dbTwo clientOk "s" 1 =
      ⟨⟨true, 1, "cp", "forked-1", 2, none⟩, true,
       [⟨"s", some "m1", some ("Restored: " ++ "cp")⟩]⟩ :=
  restore_success_forks_at_boundary dbTwo clientOk "s" 1 cpTwo msgsThree
    ⟨"m1", "c1"⟩ ⟨"forked-1", "t"⟩ rfl rfl (by decide) rfl (by decide) rfl rfl

/-- C2 counterexample: for a checkpoint with `messageCount = 0` owned by
the caller's session and a live session with one message, the claim says
restore treats the checkpoint as valid and forks at the first message; in
the code `messages[0 - 1]` is `undefined`, so restore fails with
`Could not find message at position 0` and fork is never invoked. -/
theorem restore_messageCount_zero_counterexample :
    (restore dbZero clientOk "s" 1).forkCalls = [] ∧
    (restore dbZero clientOk "s" 1).result =
      ⟨false, 1, "cp", "", 0, some "Could not find message at position 0"⟩ :=
  ⟨rfl, rfl⟩

/-- C2 amended: for a checkpoint with `messageCount = 0` owned by the
caller's session, once the live messages are fetched restore always fails
with `Could not find message at position 0` (the subscript at `0 - 1` is
undefined), never invoking fork, whatever the live message count is. -/
theorem restore_messageCount_zero_fails
    (db : DbState) (client : OpenCodeSessionClient) (s : String) (cid : Nat)
    (cp : Checkpoint) (msgs : List Msg)
    (hcp : getCheckpoint db cid = some cp)
    (hown : cp.sessionId = s)
    (hzero : cp.messageCount = 0)
    (hmsgs : client.messages s = Except.ok msgs) :
    restore db client s cid =
      ⟨⟨false, cid, cp.name, "", 0,
        some "Could not find message at position 0"⟩, true, []⟩ :=
  restore_eq_of_zero_count hcp hown hzero hmsgs

/-- Witness for the amended C2, with one live message present. -/
theorem restore_messageCount_zero_fails_witness :
    restore dbZero clientOk "s" 1 =
      ⟨⟨false, 1, "cp", "", 0,
        some "Could not find message at position 0"⟩, true, []⟩ :=
  restore_messageCount_zero_fails dbZero clientOk "s" 1 cpZero msgsThree
    rfl rfl rfl rfl

/-- C3: `canRestore` and `restore` diverge, contrary to the claim that
they apply exactly the same checks.  At a checkpoint with
`messageCount = 0` (here with one live message), `canRestore` reports
`valid = true` while `restore` on the same inputs fails before reaching
the fork invocation: `canRestore` has no counterpart of restore's
missing-boundary-message check. -/
theorem canRestore_restore_divergence :
    canRestore dbZero clientOk "s" 1 = ⟨true, none⟩ ∧
    (restore dbZero clientOk "s" 1).result.success = false ∧
    (restore dbZero clientOk "s" 1).forkCalls = [] :=
  ⟨rfl, rfl, rfl⟩

/-- C4: when the live session has fewer messages than the checkpoint
records, restore fails with an error stating both counts, and fork is
never invoked. -/
theorem restore_insufficient_messages
    (db : DbState) (client : OpenCodeSessionClient) (s : String) (cid : Nat)
    (cp : Checkpoint) (msgs : List Msg)
    (hcp : getCheckpoint db cid = some cp)
    (hown : cp.sessionId = s)
    (hmsgs : client.messages s = Except.ok msgs)
    (hlt : msgs.length < cp.messageCount) :
    restore db client s cid =
      ⟨⟨false, cid, cp.name, "", msgs.length,
        some ("Current session has " ++ toString msgs.length ++
          " messages, checkpoint expects " ++ toString cp.messageCount)⟩,
       true, []⟩ :=
  restore_eq_of_insufficient hcp hown hmsgs hlt

/-- Witness for C4: checkpoint expects 5 messages, live session has 3. -/
theorem restore_insufficient_messages_witness :
    restore dbFive clientOk "s" 1 =
      ⟨⟨false, 1, "cp", "", 3,
        some ("Current session has " ++ toString (3 : Nat) ++
          " messages, checkpoint expects " ++ toString (5 : Nat))⟩,
       true, []⟩ :=
  restore_insufficient_messages dbFive clientOk "s" 1 cpFive msgsThree
    rfl rfl rfl (by decide)

/-- C9: a rejected collaborator call never propagates: if the message
fetch rejects with message text `e`, restore returns a structured failure
carrying `e`; and if the fork call rejects with `e`, restore likewise
returns a structured failure carrying `e`.  (In this embedding restore is
a total function into `RestoreOutcome`, mirroring that the try/catch in
the source converts every thrown error into a returned result.) -/
theorem restore_collaborator_error_structured
    (db : DbState) (client : OpenCodeSessionClient) (s : String) (cid : Nat)
    (cp : Checkpoint) (e : String)
    (hcp : getCheckpoint db cid = some cp)
    (hown : cp.sessionId = s) :
    (client.messages s = Except.error e →
      restore db client s cid =
        ⟨⟨false, cid, cp.name, "", 0, some e⟩, true, []⟩) ∧
    (∀ msgs m, client.messages s = Except.ok msgs →
      1 ≤ cp.messageCount → cp.messageCount ≤ msgs.length →
      msgs.get? (cp.messageCount - 1) = some m →
      client.fork ⟨s, some m.id, some ("Restored: " ++ cp.name)⟩ = Except.error e →
      restore db client s cid =
        ⟨⟨false, cid, cp.name, "", 0, some e⟩, true,
         [⟨s, some m.id, some ("Restored: " ++ cp.name)⟩]⟩) := by
  constructor
  · intro herr
    exact restore_eq_of_msg_error hcp hown herr
  · intro msgs m hmsgs hk hlen hm hfork
    exact restore_eq_of_fork_error hcp hown hmsgs hk hlen hm hfork

/-- Witness for C9: a rejected message fetch surfaces as a failed result
carrying the rejection's message text. -/
theorem restore_collaborator_error_structured_witness :
    restore dbTwo clientMsgErr "s" 1 =
      ⟨⟨false, 1, "cp", "", 0, some "API connection failed"⟩, true, []⟩ :=
  (restore_collaborator_error_structured dbTwo clientMsgErr "s" 1 cpTwo
    "API connection failed" rfl rfl).1 rfl

lemma restore_fail_newSessionId
    (db : DbState) (client : OpenCodeSessionClient) (s : String) (cid : Nat) :
    (restore db client s cid).result.success = false →
    (restore db client s cid).result.newSessionId = "" := by
  unfold restore
  cases hg : getCheckpoint db cid with
  | none => intro _; rfl
  | some cp =>
    dsimp only
    by_cases hown : cp.sessionId ≠ s
    · rw [if_pos hown]; intro _; rfl
    · rw [if_neg hown]
      cases hmsg : client.messages s with
      | error e => intro _; rfl
      | ok msgs =>
        dsimp only
        by_cases hlt : msgs.length < cp.messageCount
        · rw [if_pos hlt]; intro _; rfl
        · rw [if_neg hlt]
          cases hj : jsIndex msgs ((cp.messageCount : Int) - 1) with
          | none => intro _; rfl
          | some m =>
            dsimp only
            cases hf : client.fork ⟨s, some m.id, some ("Restored: " ++ cp.name)⟩ with
            | error e => intro _; rfl
            | ok fr => intro h; simp at h

/-- C10: every failed result of `restore` or `restoreByName` carries
`newSessionId = ""`; its `messageCount` equals the live message count in
the insufficient-messages case and `0` in every other failure case
(checkpoint not found, ownership mismatch, message-fetch rejection,
missing boundary message, fork rejection, unknown name) — never the
checkpoint's recorded `messageCount`.  The conjuncts cover every failure
branch of the code; the only remaining branch returns `success = true`. -/
theorem restore_failure_result_shape
    (db : DbState) (client : OpenCodeSessionClient) (s nm : String) (cid : Nat) :
    ((restore db client s cid).result.success = false →
      (restore db client s cid).result.newSessionId = "") ∧
    (getCheckpoint db cid = none →
      (restore db client s cid).result.messageCount = 0) ∧
    (∀ cp, getCheckpoint db cid = some cp → cp.sessionId ≠ s →
      (restore db client s cid).result.messageCount = 0) ∧
    (∀ cp e, getCheckpoint db cid = some cp → cp.sessionId = s →
      client.messages s = Except.error e →
      (restore db client s cid).result.messageCount = 0) ∧
    (∀ cp msgs, getCheckpoint db cid = some cp → cp.sessionId = s →
      client.messages s = Except.ok msgs → msgs.length < cp.messageCount →
      (restore db client s cid).result.messageCount = msgs.length) ∧
    (∀ cp msgs, getCheckpoint db cid = some cp → cp.sessionId = s →
      client.messages s = Except.ok msgs → cp.messageCount = 0 →
      (restore db client s cid).result.messageCount = 0) ∧
    (∀ cp msgs m e, getCheckpoint db cid = some cp → cp.sessionId = s →
      client.messages s = Except.ok msgs → 1 ≤ cp.messageCount →
      cp.messageCount ≤ msgs.length →
      msgs.get? (cp.messageCount - 1) = some m →
      client.fork ⟨s, some m.id, some ("Restored: " ++ cp.name)⟩ = Except.error e →
      (restore db client s cid).result.messageCount = 0) ∧
    (findCheckpointByName db s nm = none →
      restoreByName db client s nm =
        ⟨⟨false, 0, nm, "", 0,
          some ("No checkpoint named \"" ++ nm ++ "\" found for session")⟩,
         false, []⟩) ∧
    (∀ cp, findCheckpointByName db s nm = some cp →
      restoreByName db client s nm = restore db client s cp.id) := by
  refine ⟨restore_fail_newSessionId db client s cid, ?_, ?_, ?_, ?_, ?_, ?_, ?_, ?_⟩
  · intro hg
    unfold restore
    rw [hg]
  · intro cp hg hne
    rw [restore_eq_of_mismatch hg hne]
  · intro cp e hg hown herr
    rw [restore_eq_of_msg_error hg hown herr]
  · intro cp msgs hg hown hmsgs hlt
    rw [restore_eq_of_insufficient hg hown hmsgs hlt]
  · intro cp msgs hg hown hmsgs hzero
    rw [restore_eq_of_zero_count hg hown hzero hmsgs]
  · intro cp msgs m e hg hown hmsgs hk hlen hm hfork
    rw [restore_eq_of_fork_error hg hown hmsgs hk hlen hm hfork]
  · intro hn
    unfold restoreByName
    rw [hn]
  · intro cp hn
    unfold restoreByName
    rw [hn]

/-- Witness for C10, at the not-found failure of a concrete store. -/
theorem restore_failure_result_shape_witness :
    (restore dbTwo clientOk "s" 99).result.messageCount = 0 :=
  (restore_failure_result_shape dbTwo clientOk "s" "nm" 99).2.1 rfl

lemma head?_some_mem {l : List Checkpoint} {c : Checkpoint}
    (h : l.head? = some c) : c ∈ l := by
  cases l with
  | nil => cases h
  | cons x xs =>
    obtain rfl : x = c := by simpa using h
    exact List.mem_cons_self x xs

/-- Fixture for timestamp ties: two rows of session `s` sharing
`createdAt = 100`, ids 1 and 2. -/
def rT1 : Checkpoint := ⟨1, "s", "a", none, 1, none, 100, "\x7b\x7d"⟩

/-- Second row of the tie fixture. -/
def rT2 : Checkpoint := ⟨2, "s", "b", none, 2, none, 100, "\x7b\x7d"⟩

/-- Store holding the two tied rows in insertion order. -/
def stTie : DbState := ⟨[rT1, rT2], 3⟩

/-- C6 counterexample: with two checkpoints of the same session sharing a
`createdAt`, `listCheckpoints` returns them in ascending id order (the SQL
`ORDER BY created_at DESC` has no tie-break; ties surface in insertion
order), so the claimed non-increasing-by-id tie order fails. -/
theorem listCheckpoints_tie_order_counterexample :
    listCheckpoints stTie "s" 50 = [rT1, rT2] ∧
    rT1.createdAt = rT2.createdAt ∧ rT1.id < rT2.id ∧
    ¬ ((listCheckpoints stTie "s" 50).Pairwise
      (fun a b => a.createdAt = b.createdAt → b.id ≤ a.id)) := by
  refine ⟨rfl, rfl, by decide, ?_⟩
  decide

/-- C6 amended: for every store state whose rows are in ascending id
(insertion) order, `listBySession` returns only that session's
checkpoints, at most `limit` of them (the TS default is 50), ordered
non-increasing by `createdAt`; the query specifies no tie-break, and rows
with equal `createdAt` appear in ascending id (insertion) order. -/
theorem listCheckpoints_session_ordered
    (st : DbState) (s : String) (limit : Nat)
    (hids : st.rows.Pairwise (fun a b => a.id < b.id)) :
    (∀ c ∈ listCheckpoints st s limit, c.sessionId = s ∧ c ∈ st.rows) ∧
    (listCheckpoints st s limit).length ≤ limit ∧
    (listCheckpoints st s limit).Pairwise
      (fun a b => b.createdAt ≤ a.createdAt ∧
        (a.createdAt = b.createdAt → a.id < b.id)) := by
  refine ⟨?_, ?_, ?_⟩
  · intro c hc
    unfold listCheckpoints at hc
    have hc' := List.take_subset _ _ hc
    have hc'' := List.mem_filter.mp (mem_sortByCreatedAtDesc.mp hc')
    exact ⟨by simpa using hc''.2, hc''.1⟩
  · unfold listCheckpoints
    exact List.length_take_le limit _
  · unfold listCheckpoints
    refine List.Pairwise.sublist (List.take_sublist _ _) ?_
    exact pairwise_stable_sortByCreatedAtDesc (List.Pairwise.filter _ hids)

/-- Witness for the amended C6, on the tied fixture. -/
theorem listCheckpoints_session_ordered_witness :
    (listCheckpoints stTie "s" 50).Pairwise
      (fun a b => b.createdAt ≤ a.createdAt ∧
        (a.createdAt = b.createdAt → a.id < b.id)) :=
  (listCheckpoints_session_ordered stTie "s" 50 (by decide)).2.2

/-- Fixture for duplicate names: two rows of session `s` named `A`, the
second created later. -/
def rD1 : Checkpoint := ⟨1, "s", "A", none, 5, none, 100, "\x7b\x7d"⟩

/-- Second row of the duplicate-name fixture, with the larger timestamp. -/
def rD2 : Checkpoint := ⟨2, "s", "A", none, 10, none, 200, "\x7b\x7d"⟩

/-- Store holding the two same-named rows. -/
def stDup : DbState := ⟨[rD1, rD2], 3⟩

/-- C7: `findCheckpointByName` yields no result exactly when no row of the
session carries exactly that name (the match is literal string equality,
hence case-sensitive), and any returned row belongs to the session,
carries the name, and has a `createdAt` at least that of every row of the
session with that name — so with two or more same-named rows it returns
one with the maximum `createdAt`. -/
theorem findCheckpointByName_most_recent (st : DbState) (s nm : String) :
    (findCheckpointByName st s nm = none ↔
      ∀ c ∈ st.rows, ¬ (c.sessionId = s ∧ c.name = nm)) ∧
    (∀ c, findCheckpointByName st s nm = some c →
      c ∈ st.rows ∧ c.sessionId = s ∧ c.name = nm ∧
      ∀ d ∈ st.rows, d.sessionId = s → d.name = nm →
        d.createdAt ≤ c.createdAt) := by
  constructor
  · unfold findCheckpointByName
    rw [List.head?_eq_none_iff, sortByCreatedAtDesc_eq_nil, List.filter_eq_nil_iff]
    simp only [Bool.and_eq_true, beq_iff_eq]
  · intro c hc
    unfold findCheckpointByName at hc
    have hmem := head?_some_mem hc
    have hrow := List.mem_filter.mp (mem_sortByCreatedAtDesc.mp hmem)
    have hprops : c.sessionId = s ∧ c.name = nm := by
      have := hrow.2
      simpa [Bool.and_eq_true, beq_iff_eq] using this
    refine ⟨hrow.1, hprops.1, hprops.2, ?_⟩
    intro d hd hds hdn
    have hdfil : d ∈ st.rows.filter (fun x => x.sessionId == s && x.name == nm) := by
      rw [List.mem_filter]
      exact ⟨hd, by simp [hds, hdn]⟩
    exact head?_max_createdAt (pairwise_ge_sortByCreatedAtDesc _) hc d
      (mem_sortByCreatedAtDesc.mpr hdfil)

/-- Witness for C7: on the duplicate-name fixture the lookup returns the
later row `rD2`, whose timestamp dominates the earlier `rD1`. -/
theorem findCheckpointByName_most_recent_witness :
    rD1.createdAt ≤ rD2.createdAt :=
  ((findCheckpointByName_most_recent stDup "s" "A").2 rD2 rfl).2.2.2 rD1
    (by decide) rfl rfl

lemma find?_id_append_new (rows : List Checkpoint) (row : Checkpoint) (i : Nat)
    (hrowid : row.id = i)
    (h : ∀ c ∈ rows, c.id ≠ i) :
    (rows ++ [row]).find? (fun c => c.id == i) = some row := by
  induction rows with
  | nil => simp [List.find?, hrowid]
  | cons x xs ih =>
    rw [List.cons_append, List.find?_cons_of_neg]
    · exact ih (fun c hc => h c (List.mem_cons_of_mem x hc))
    · simp [h x (List.mem_cons_self x xs)]

lemma getCheckpoint_create_self (st : DbState) (data : CheckpointCreate)
    (now : Nat) (hinv : DbInv st) :
    getCheckpoint (createCheckpoint st data now).2 st.nextId =
      some ⟨st.nextId, data.sessionId, data.name, jsOrNull data.description,
        data.messageCount, jsOrNull data.gitCommit, now,
        data.metadata.getD "\x7b\x7d"⟩ := by
  unfold getCheckpoint createCheckpoint
  dsimp only
  apply find?_id_append_new
  · rfl
  · intro c hc
    exact Nat.ne_of_lt (hinv c hc)

lemma getCheckpoint_applyOp_pres {st : DbState} {id : Nat} {c : Checkpoint}
    {op : DbOp}
    (hget : getCheckpoint st id = some c)
    (h1 : op ≠ DbOp.deleteCp id)
    (h2 : op ≠ DbOp.deleteSession c.sessionId) :
    getCheckpoint (applyOp st op) id = some c := by
  have hid : c.id = id := by simpa using List.find?_some hget
  cases op with
  | create data now =>
    unfold getCheckpoint at hget ⊢
    unfold applyOp createCheckpoint
    exact find?_append_some hget
  | deleteCp i =>
    have hne : i ≠ id := fun h => h1 (by rw [h])
    unfold getCheckpoint at hget ⊢
    unfold applyOp deleteCheckpoint
    exact find?_filter_some hget (by simp [hid, Ne.symm hne])
  | deleteSession s' =>
    have hne : s' ≠ c.sessionId := fun h => h2 (by rw [h])
    unfold getCheckpoint at hget ⊢
    unfold applyOp deleteSessionCheckpoints
    exact find?_filter_some hget (by simp [Ne.symm hne])

lemma getCheckpoint_applyOps_pres {st : DbState} {id : Nat} {c : Checkpoint}
    {ops : List DbOp}
    (hget : getCheckpoint st id = some c)
    (hops : ∀ op ∈ ops, op ≠ DbOp.deleteCp id ∧ op ≠ DbOp.deleteSession c.sessionId) :
    getCheckpoint (applyOps st ops) id = some c := by
  induction ops generalizing st with
  | nil => simpa [applyOps] using hget
  | cons op ops ih =>
    have h := hops op (List.mem_cons_self op ops)
    simp only [applyOps, List.foldl_cons]
    exact ih (getCheckpoint_applyOp_pres hget h.1 h.2)
      (fun o ho => hops o (List.mem_cons_of_mem op ho))

/-- Creation input with an empty-string description. -/
def crEmptyDesc : CheckpointCreate := ⟨"s", "n", some "", 3, none, none⟩

/-- C8 counterexample: `create` with `description = ""` stores `null`
(`data.description || null` treats the empty string as falsy), so the
record `get` returns does not carry the supplied description value. -/
theorem create_get_description_counterexample :
    ¬ ((getCheckpoint (createCheckpoint ⟨[], 1⟩ crEmptyDesc 100).2
        (createCheckpoint ⟨[], 1⟩ crEmptyDesc 100).1).map Checkpoint.description =
      some crEmptyDesc.description) := by decide

/-- C8 amended: after `create(...) → id`, every later `get(id)` returns a
record with the same sessionId, name, messageCount and metadata (the
serialized blob, defaulting to the empty JSON object) as supplied, and
with the supplied description and gitCommit except that an empty string
is normalized to absent — for as long as the subsequent operations
neither delete that id nor bulk-delete its session. -/
theorem create_get_roundtrip
    (st : DbState) (data : CheckpointCreate) (now : Nat) (ops : List DbOp)
    (hinv : DbInv st)
    (hops : ∀ op ∈ ops, op ≠ DbOp.deleteCp st.nextId ∧
      op ≠ DbOp.deleteSession data.sessionId) :
    getCheckpoint (applyOps (createCheckpoint st data now).2 ops)
        (createCheckpoint st data now).1 =
      some ⟨st.nextId, data.sessionId, data.name, jsOrNull data.description,
        data.messageCount, jsOrNull data.gitCommit, now,
        data.metadata.getD "\x7b\x7d"⟩ :=
  getCheckpoint_applyOps_pres (getCheckpoint_create_self st data now hinv) hops

/-- Witness for the amended C8: a fully populated creation survives an
unrelated delete and an unrelated session purge. -/
theorem create_get_roundtrip_witness :
    getCheckpoint (applyOps (createCheckpoint ⟨[], 1⟩ ⟨"s", "n", some "d", 3, some "g", some "mj"⟩ 100).2
        [DbOp.deleteCp 7, DbOp.deleteSession "other"])
      (createCheckpoint ⟨[], 1⟩ ⟨"s", "n", some "d", 3, some "g", some "mj"⟩ 100).1 =
      some ⟨1, "s", "n", some "d", 3, some "g", 100, "mj"⟩ :=
  create_get_roundtrip ⟨[], 1⟩ ⟨"s", "n", some "d", 3, some "g", some "mj"⟩ 100
    [DbOp.deleteCp 7, DbOp.deleteSession "other"]
    (by simp [DbInv]) (by decide)

end OpencodeCheckpoint
